import Mathlib

/-!
Shallow embedding of the `rust-variant-ts` library (src/index.ts): a generic
tagged-union ("variant") abstraction with pattern-matching dispatch, the two
derived families `Result<T,E>` and `Option<T>`, and the demo functions
`divide` and `findEven`.

Modelling conventions:
* TypeScript objects of the variant classes become Lean inductives; the
  discriminant field `tag` becomes a function to `String`.
* `Variant.match` takes a handler map (a JS object keyed by the tags); it is
  embedded as `matchDispatch` over an association list `List (String × (α → R))`,
  looking up the key `tag self` and applying the found handler to the instance
  itself, exactly mirroring `const handler = handlers[this.tag]; return handler(this)`.
  In TS the typed handler object is exhaustive, so the lookup cannot fail; here
  the raw lookup returns an optional result, and the typed surface
  (`Result.matchT`, `Option.matchT`) is the total specialization obtained when a
  well-typed exhaustive handler object is supplied (the handler for case `K`
  receives the payload fields of `K`, destructured from the instance).
* JS exceptions (`throw new Error(msg)`) are embedded as `Except String`.
* JS numbers at the call sites relevant to the spec are exact values; they are
  modelled as `ℚ` (for `divide`, whose `/` is not integer division) and `Int`
  (for `findEven`, whose inputs are integer lists and whose predicate is
  remainder-mod-2).
-/

/-- Core `Option`, kept reachable inside the `VariantType` namespace, which
declares its own `Option` mirroring the source. -/
abbrev COption := Option

/-- Embedding of `Variant.match` from src/index.ts lines 8-11:
`const handler = handlers[this.tag]; return handler(this as any);`
The handler map is an association list from tag strings to handlers; the
handler found under the instance's discriminant is applied to the instance
itself. -/
def matchDispatch {α : Type _} {R : Type _} (tag : α → String)
    (handlers : List (String × (α → R))) (self : α) : COption R :=
  match handlers.lookup (tag self) with
  | some handler => some (handler self)
  | none => none

namespace VariantType

/-- `Result<T, E>` (src/index.ts lines 14-46): a two-case variant.
`Ok` holds `value : T`, `Err` holds `error : E`. -/
inductive Result (T E : Type) where
  | Ok (value : T)
  | Err (error : E)
deriving DecidableEq

/-- The discriminant field: `readonly tag = 'Ok' as const` on `Ok`,
`readonly tag = 'Err' as const` on `Err`. -/
def Result.tag {T E : Type} : Result T E → String
  | .Ok _ => "Ok"
  | .Err _ => "Err"

/-- `static ok<T, E>(value: T): Result<T, E> { return new Ok(value); }` -/
def Result.ok {T E : Type} (value : T) : Result T E :=
  Result.Ok value

/-- `static err<T, E>(error: E): Result<T, E> { return new Err(error); }` -/
def Result.err {T E : Type} (error : E) : Result T E :=
  Result.Err error

/-- Reading the `value` field of a `Result` instance: present (as declared on
class `Ok`) exactly on the `Ok` case. -/
def Result.value? {T E : Type} : Result T E → COption T
  | .Ok value => some value
  | .Err _ => none

/-- Reading the `error` field of a `Result` instance: present (as declared on
class `Err`) exactly on the `Err` case. -/
def Result.error? {T E : Type} : Result T E → COption E
  | .Ok _ => none
  | .Err error => some error

/-- `Variant.match` specialized to `Result` instances, with the handler map
still in raw association-list form. -/
def Result.matchRaw {T E R : Type} (r : Result T E)
    (handlers : List (String × (Result T E → R))) : COption R :=
  matchDispatch Result.tag handlers r

/-- The typed surface of `Result`'s `match`: a well-typed handler object
`{ Ok: ..., Err: ... }` is exhaustive, each handler receiving its case's
payload fields (destructured from the instance), so dispatch is total. -/
def Result.matchT {T E R : Type} (r : Result T E) (hOk : T → R) (hErr : E → R) : R :=
  match r with
  | .Ok value => hOk value
  | .Err error => hErr error

/-- `Option<T>` (src/index.ts lines 48-119): a two-case variant.
`Some` holds `value : T`, `None` holds no payload. -/
inductive Option (T : Type) where
  | Some (value : T)
  | None
deriving DecidableEq

/-- The discriminant field: `readonly tag = 'Some' as const` on `Some`,
`readonly tag = 'None' as const` on `None`. -/
def Option.tag {T : Type} : Option T → String
  | .Some _ => "Some"
  | .None => "None"

/-- `static some<T>(value: T): Option<T> { return new Some(value); }` -/
def Option.some {T : Type} (value : T) : Option T :=
  Option.Some value

/-- `static none<T>(): Option<T> { return new None(); }` -/
def Option.none {T : Type} : Option T :=
  Option.None

/-- Reading the `value` field of an `Option` instance: present (as declared on
class `Some`) exactly on the `Some` case. -/
def Option.value? {T : Type} : Option T → COption T
  | .Some value => .some value
  | .None => .none

/-- `Variant.match` specialized to `Option` instances, with the handler map
still in raw association-list form. -/
def Option.matchRaw {T R : Type} (o : Option T)
    (handlers : List (String × (Option T → R))) : COption R :=
  matchDispatch Option.tag handlers o

/-- The typed surface of `Option`'s `match`: a well-typed handler object
`{ Some: ..., None: ... }` is exhaustive (the `None` handler receives the empty
payload `{}`, modelled as `Unit`), so dispatch is total. -/
def Option.matchT {T R : Type} (o : Option T) (hSome : T → R) (hNone : Unit → R) : R :=
  match o with
  | .Some value => hSome value
  | .None => hNone ()

/-- `isSome()`: `true` on class `Some`, `false` on class `None`. -/
def Option.isSome {T : Type} : Option T → Bool
  | .Some _ => true
  | .None => false

/-- `isNone()`: `false` on class `Some`, `true` on class `None`. -/
def Option.isNone {T : Type} : Option T → Bool
  | .Some _ => false
  | .None => true

/-- `unwrap()`: on `Some`, `return this.value`; on `None`,
`throw new Error('Cannot unwrap None')`. The thrown error is embedded as
`Except.error` carrying the message. -/
def Option.unwrap {T : Type} : Option T → Except String T
  | .Some value => Except.ok value
  | .None => Except.error "Cannot unwrap None"

/-- `unwrapOr(defaultValue)`: on `Some`, `return this.value` (the default is
ignored); on `None`, `return defaultValue`. -/
def Option.unwrapOr {T : Type} : Option T → T → T
  | .Some value, _ => value
  | .None, defaultValue => defaultValue

/-- `map(f)` (src/index.ts lines 69-74), written via `this.match` exactly as in
the source:
`return this.match({ Some: ({ value }) => Option.some(f(value)), None: () => Option.none() })`. -/
def Option.map {T U : Type} (o : Option T) (f : T → U) : Option U :=
  o.matchT (fun value => Option.some (f value)) (fun _ => Option.none)

/-- `flatMap(f)` (src/index.ts lines 76-81), written via `this.match` exactly
as in the source:
`return this.match({ Some: ({ value }) => f(value), None: () => Option.none() })`. -/
def Option.flatMap {T U : Type} (o : Option T) (f : T → Option U) : Option U :=
  o.matchT (fun value => f value) (fun _ => Option.none)

end VariantType

/-- JS number-to-string conversion as used by the demo's template literals,
modelled for the exact rationals the demo produces (an integral value prints
with no fractional part, as in JS). -/
def numToString (q : ℚ) : String :=
  if q.den = 1 then toString q.num else toString q.num ++ "/" ++ toString q.den

/-- `divide` (src/index.ts lines 122-127):
`if (b === 0) return Result.err('Division by zero'); return Result.ok(a / b);`
JS `/` on numbers is exact on the spec's inputs; modelled over `ℚ`. -/
def divide (a b : ℚ) : VariantType.Result ℚ String :=
  if b = 0 then VariantType.Result.err "Division by zero"
  else VariantType.Result.ok (a / b)

/-- The message computed for each result by the demo (src/index.ts lines
138-144): `result.match({ Ok: ({value}) => 'Result: ' + value, Err: ({error}) => 'Error: ' + error })`. -/
def resultMessage (result : VariantType.Result ℚ String) : String :=
  result.matchT (fun value => "Result: " ++ numToString value)
    (fun error => "Error: " ++ error)

/-- `findEven` (src/index.ts lines 129-134):
`const even = numbers.find((n) => n % 2 === 0); return even !== undefined ? Option.some(even) : Option.none();`
JS `Array.find` returns the first element satisfying the predicate, or
`undefined`; it is embedded as `List.find?`. -/
def findEven (numbers : List Int) : VariantType.Option Int :=
  match numbers.find? (fun n => n % 2 == 0) with
  | some even => VariantType.Option.some even
  | none => VariantType.Option.none

section DispatchLemmas

variable {β γ : Type _}

/-- A successful association-list lookup returns an entry of the list. -/
theorem lookup_mem {k : String} {b : β} {hs : List (String × β)}
    (h : hs.lookup k = some b) : (k, b) ∈ hs := by
  obtain ⟨l₁, l₂, rfl, -⟩ := List.lookup_eq_some_iff.mp h
  exact List.mem_append.mpr (Or.inr (List.mem_cons_self _ _))

/-- A key occurring among an association list's keys is found by lookup. -/
theorem exists_lookup_of_mem_keys {k : String} {hs : List (String × β)}
    (h : k ∈ hs.map Prod.fst) : ∃ b, hs.lookup k = some b := by
  obtain ⟨p, hp, hpk⟩ := List.mem_map.mp h
  have hsome : (hs.lookup k).isSome = true :=
    List.lookup_isSome_iff.mpr ⟨p, hp, by simp [hpk]⟩
  exact Option.isSome_iff_exists.mp hsome

/-- Lookup in an association list whose entries are rebuilt from their keys. -/
theorem lookup_map_of_fun (g : String → γ) (k : String) :
    ∀ hs : List (String × β),
      (hs.map (fun p => (p.1, g p.1))).lookup k = (hs.lookup k).map (fun _ => g k)
  | [] => rfl
  | (a, b) :: t => by
    rw [List.map_cons, List.lookup_cons, List.lookup_cons]
    cases hka : (k == a)
    · simpa using lookup_map_of_fun g k t
    · simp [eq_of_beq hka]

/-- With duplicate-free keys, association-list lookup is invariant under
permutation of the entries. -/
theorem lookup_perm_of_nodup_keys (k : String) {hs hs' : List (String × β)}
    (hp : hs.Perm hs') :
    (hs.map Prod.fst).Nodup → hs.lookup k = hs'.lookup k := by
  induction hp with
  | nil => intro _; rfl
  | cons x hp ih =>
    intro hnd
    obtain ⟨a, b⟩ := x
    rw [List.map_cons] at hnd
    rw [List.lookup_cons, List.lookup_cons]
    cases hka : (k == a)
    · simpa using ih (List.nodup_cons.mp hnd).2
    · rfl
  | swap x y l =>
    intro hnd
    obtain ⟨a, b⟩ := x
    obtain ⟨c, d⟩ := y
    rw [List.map_cons, List.map_cons] at hnd
    have hca : c ≠ a := by
      have := (List.nodup_cons.mp hnd).1
      simp only [List.mem_cons] at this
      exact fun h => this (Or.inl h)
    rw [List.lookup_cons, List.lookup_cons, List.lookup_cons, List.lookup_cons]
    cases hkc : (k == c) <;> cases hka : (k == a) <;> simp
    exact absurd ((eq_of_beq hkc).symm.trans (eq_of_beq hka)) hca
  | trans h1 h2 ih1 ih2 =>
    intro hnd
    exact (ih1 hnd).trans (ih2 (((h1.map Prod.fst).nodup_iff).mp hnd))

end DispatchLemmas

/-- C1: for every variant instance and every handler map containing exactly one
handler per declared case, `match` selects the handler whose key equals the
instance's discriminant, invokes it with the instance's own payload, and
returns that handler's result, independent of the order in which the handlers
are declared. The last conjunct instruments every handler with a call log and
shows the dispatch produces exactly one call record — the handler keyed by the
discriminant, called once, with the instance itself as its argument. -/
theorem match_selects_unique_handler {α R : Type _} (tag : α → String)
    (cases : List String) (hs : List (String × (α → R))) (self : α)
    (hnd : cases.Nodup) (hkeys : (hs.map Prod.fst).Perm cases)
    (hmem : tag self ∈ cases) :
    ∃ handler, hs.lookup (tag self) = some handler ∧
      (tag self, handler) ∈ hs ∧
      matchDispatch tag hs self = some (handler self) ∧
      (∀ hs' : List (String × (α → R)), hs'.Perm hs →
        matchDispatch tag hs' self = some (handler self)) ∧
      matchDispatch tag (hs.map (fun p => (p.1, fun x => [(p.1, x)]))) self
        = some [(tag self, self)] := by
  have hmemk : tag self ∈ hs.map Prod.fst := hkeys.mem_iff.mpr hmem
  obtain ⟨handler, hlk⟩ := exists_lookup_of_mem_keys hmemk
  have hndk : (hs.map Prod.fst).Nodup := hkeys.nodup_iff.mpr hnd
  refine ⟨handler, hlk, lookup_mem hlk, ?_, ?_, ?_⟩
  · simp [matchDispatch, hlk]
  · intro hs' hp
    have heq : hs.lookup (tag self) = hs'.lookup (tag self) :=
      lookup_perm_of_nodup_keys (tag self) hp.symm hndk
    simp [matchDispatch, heq.symm.trans hlk]
  · simp [matchDispatch, lookup_map_of_fun (fun s => fun x => [(s, x)]), hlk]

/-- Concrete data for exercising the dispatch theorem: an `Ok` instance and a
well-typed exhaustive handler map for `Result`. -/
def c1Self : VariantType.Result Nat Nat :=
  VariantType.Result.ok 0

/-- Concrete handler map with exactly one handler per declared `Result` case. -/
def c1Handlers : List (String × (VariantType.Result Nat Nat → Nat)) :=
  [("Ok", fun _ => 1), ("Err", fun _ => 2)]

/-- Witness for C1: the dispatch theorem applied to a concrete `Ok` instance
and a concrete exhaustive handler map. -/
theorem match_selects_unique_handler_witness :
    ∃ handler, c1Handlers.lookup (VariantType.Result.tag c1Self) = some handler ∧
      (VariantType.Result.tag c1Self, handler) ∈ c1Handlers ∧
      matchDispatch VariantType.Result.tag c1Handlers c1Self = some (handler c1Self) ∧
      (∀ hs' : List (String × (VariantType.Result Nat Nat → Nat)), hs'.Perm c1Handlers →
        matchDispatch VariantType.Result.tag hs' c1Self = some (handler c1Self)) ∧
      matchDispatch VariantType.Result.tag
        (c1Handlers.map (fun p => (p.1, fun x => [(p.1, x)]))) c1Self
        = some [(VariantType.Result.tag c1Self, c1Self)] :=
  match_selects_unique_handler VariantType.Result.tag ["Ok", "Err"] c1Handlers c1Self
    (by decide) (by decide) (by decide)

/-- C9: the argument `match` passes to the selected handler is the variant
instance itself, not a separate payload record: the object an `Ok` handler
receives carries the discriminant field (`tag = "Ok"`) alongside the case's
payload field (`value` equal to the held value), and this is independent of
the handler map's entry order. -/
theorem match_passes_instance {T E R : Type} (v : T)
    (hOk hErr : VariantType.Result T E → R) :
    matchDispatch VariantType.Result.tag [("Ok", hOk), ("Err", hErr)]
        (VariantType.Result.ok (E := E) v)
      = some (hOk (VariantType.Result.ok v)) ∧
    matchDispatch VariantType.Result.tag [("Err", hErr), ("Ok", hOk)]
        (VariantType.Result.ok (E := E) v)
      = some (hOk (VariantType.Result.ok v)) ∧
    (VariantType.Result.ok (E := E) v).tag = "Ok" ∧
    (VariantType.Result.ok (E := E) v).value? = some v := by
  refine ⟨?_, ?_, rfl, rfl⟩ <;>
    simp [matchDispatch, List.lookup_cons, VariantType.Result.ok, VariantType.Result.tag]

/-- C2: for the instance produced by `Option.none()`: `isSome()` is `false`,
`isNone()` is `true`, `unwrapOr(d)` returns `d` for every default `d`, and
`unwrap()` raises (rather than returns) the fixed diagnostic
`"Cannot unwrap None"`, which names the extraction operation (`unwrap`) and the
empty optional case (`None`). -/
theorem none_observers {T : Type} (d : T) :
    (VariantType.Option.none (T := T)).isSome = false ∧
    (VariantType.Option.none (T := T)).isNone = true ∧
    (VariantType.Option.none (T := T)).unwrapOr d = d ∧
    (VariantType.Option.none (T := T)).unwrap = Except.error "Cannot unwrap None" :=
  ⟨rfl, rfl, rfl, rfl⟩

/-- C3: round-trip of the `Result` constructors through `match`: extracting the
`value` field in the `Ok` handler returns the constructed value, and extracting
the `error` field in the `Err` handler returns the constructed error, for every
choice of sentinel returned by the other handler. -/
theorem result_match_roundtrip {T E : Type} (v : T) (e : E) (sT : T) (sE : E) :
    (VariantType.Result.ok (E := E) v).matchT (fun value => value) (fun _ => sT) = v ∧
    (VariantType.Result.err (T := T) e).matchT (fun _ => sE) (fun error => error) = e :=
  ⟨rfl, rfl⟩

/-- C4: `Option.some(v).map(f)` is a `Some` holding `f(v)` (so its `unwrap`
returns `f(v)`), and `Option.none().map(f)` is a `None`; in this pure embedding
"`f` is never invoked" is rendered by the final conjunct: the result on `None`
is independent of `f`. -/
theorem option_map_spec {T U : Type} (v : T) (f : T → U) :
    (VariantType.Option.some v).map f = VariantType.Option.some (f v) ∧
    ((VariantType.Option.some v).map f).unwrap = Except.ok (f v) ∧
    ((VariantType.Option.none (T := T)).map f).isNone = true ∧
    (VariantType.Option.none (T := T)).map f = VariantType.Option.none ∧
    (∀ g : T → U, (VariantType.Option.none (T := T)).map f
      = (VariantType.Option.none (T := T)).map g) :=
  ⟨rfl, rfl, rfl, rfl, fun _ => rfl⟩

/-- C5: `Option.some(v).flatMap(f)` equals `f(v)` itself — same case and
payload, no double-wrapping — and `Option.none().flatMap(f)` is a `None`; in
this pure embedding "`f` is never invoked" is rendered by the final conjunct:
the result on `None` is independent of `f`. -/
theorem option_flatMap_spec {T U : Type} (v : T) (f : T → VariantType.Option U) :
    (VariantType.Option.some v).flatMap f = f v ∧
    ((VariantType.Option.none (T := T)).flatMap f).isNone = true ∧
    (VariantType.Option.none (T := T)).flatMap f = VariantType.Option.none ∧
    (∀ g : T → VariantType.Option U, (VariantType.Option.none (T := T)).flatMap f
      = (VariantType.Option.none (T := T)).flatMap g) :=
  ⟨rfl, rfl, rfl, fun _ => rfl⟩

/-- C6: for every value `v` and default `d`, `Option.some(v)` satisfies:
`isSome()` is `true`, `isNone()` is `false`, `unwrap()` returns `v`, and
`unwrapOr(d)` returns `v`, ignoring the default. -/
theorem some_observers {T : Type} (v d : T) :
    (VariantType.Option.some v).isSome = true ∧
    (VariantType.Option.some v).isNone = false ∧
    (VariantType.Option.some v).unwrap = Except.ok v ∧
    (VariantType.Option.some v).unwrapOr d = v :=
  ⟨rfl, rfl, rfl, rfl⟩

/-- C7: `divide(10,2)` returns `Ok` with value 5 and the demo handlers turn it
into the message `"Result: 5"`; `divide(1,0)` returns `Err` with error
`"Division by zero"` and yields `"Error: Division by zero"`. -/
theorem divide_scenarios :
    divide 10 2 = VariantType.Result.ok 5 ∧
    resultMessage (divide 10 2) = "Result: 5" ∧
    divide 1 0 = VariantType.Result.err "Division by zero" ∧
    resultMessage (divide 1 0) = "Error: Division by zero" := by
  have h : (10 : ℚ) / 2 = 5 := by norm_num
  refine ⟨?_, ?_, ?_, ?_⟩
  · simp [divide, h]
  · simp [resultMessage, divide, h, numToString, VariantType.Result.ok,
      VariantType.Result.matchT, Rat.den_ofNat, Rat.num_ofNat]
    rfl
  · simp [divide]
  · simp [resultMessage, divide, VariantType.Result.err, VariantType.Result.matchT]

/-- C8: every `Result` and `Option` instance is immutable after construction.
The embedding is pure — in the source every field is `readonly` and no method
assigns — so mutation of the receiver is unrepresentable; the theorem records
the observable content: the discriminant always lies in the declared case set,
discriminant and payload are fixed by the construction arguments alone, and
`map`/`flatMap` produce fresh constructions (`Some (f v)`, `f v`) while the
receiver's own case and payload observations are unchanged. -/
theorem variant_immutable {T E U : Type} (v : T) (e : E) (f : T → U)
    (g : T → VariantType.Option U) :
    (∀ r : VariantType.Result T E, r.tag = "Ok" ∨ r.tag = "Err") ∧
    (∀ o : VariantType.Option T, o.tag = "Some" ∨ o.tag = "None") ∧
    (VariantType.Result.ok (E := E) v).tag = "Ok" ∧
    (VariantType.Result.ok (E := E) v).value? = some v ∧
    (VariantType.Result.err (T := T) e).tag = "Err" ∧
    (VariantType.Result.err (T := T) e).error? = some e ∧
    (VariantType.Option.some v).tag = "Some" ∧
    (VariantType.Option.some v).value? = some v ∧
    (VariantType.Option.none (T := T)).tag = "None" ∧
    (VariantType.Option.none (T := T)).value? = none ∧
    ((VariantType.Option.some v).map f = VariantType.Option.some (f v) ∧
      (VariantType.Option.some v).tag = "Some" ∧
      (VariantType.Option.some v).value? = some v) ∧
    ((VariantType.Option.some v).flatMap g = g v ∧
      (VariantType.Option.some v).tag = "Some" ∧
      (VariantType.Option.some v).value? = some v) := by
  refine ⟨?_, ?_, rfl, rfl, rfl, rfl, rfl, rfl, rfl, rfl,
    ⟨rfl, rfl, rfl⟩, ⟨rfl, rfl, rfl⟩⟩
  · intro r
    cases r with
    | Ok value => exact Or.inl rfl
    | Err error => exact Or.inr rfl
  · intro o
    cases o with
    | Some value => exact Or.inl rfl
    | None => exact Or.inr rfl

/-- `List.find?` returns the element at the smallest index satisfying the
predicate. -/
theorem find?_first {γ : Type _} (p : γ → Bool) :
    ∀ (l : List γ) (i : Nat) (hi : i < l.length),
      p (l.get ⟨i, hi⟩) = true →
      (∀ j (hj : j < i), p (l.get ⟨j, hj.trans hi⟩) = false) →
      l.find? p = some (l.get ⟨i, hi⟩)
  | [], i, hi, _, _ => absurd hi (by simp)
  | a :: t, 0, hi, hp, _ => List.find?_cons_of_pos t hp
  | a :: t, i + 1, hi, hp, hmin => by
    have ha : p a = false := hmin 0 (Nat.succ_pos i)
    rw [List.find?_cons_of_neg t (by simp [ha])]
    exact find?_first p t i (Nat.lt_of_succ_lt_succ hi) hp
      (fun j hj => hmin (j + 1) (Nat.succ_lt_succ hj))

/-- C10: for every list of numbers, `findEven` returns `Some` holding the
element at the smallest index whose remainder modulo 2 is 0 when such an
element exists, and `None` when no element of the list is even. -/
theorem findEven_first_even (l : List Int) :
    ((∀ x ∈ l, x % 2 ≠ 0) → findEven l = VariantType.Option.none) ∧
    (∀ i (hi : i < l.length), l.get ⟨i, hi⟩ % 2 = 0 →
      (∀ j (hj : j < i), l.get ⟨j, hj.trans hi⟩ % 2 ≠ 0) →
      findEven l = VariantType.Option.some (l.get ⟨i, hi⟩)) := by
  constructor
  · intro h
    have hn : l.find? (fun n => n % 2 == 0) = none :=
      List.find?_eq_none.mpr (fun x hx => by simpa using h x hx)
    simp [findEven, hn]
  · intro i hi hp hmin
    have hf : l.find? (fun n => n % 2 == 0) = some (l.get ⟨i, hi⟩) :=
      find?_first _ l i hi (by simpa using hp)
        (fun j hj => by simpa using hmin j hj)
    simp [findEven, hf]

/-- Witness for C10: on the demo list the first even element, 8, is found; on
an all-odd list nothing is. -/
theorem findEven_first_even_witness :
    findEven [1, 3, 5, 7, 8, 9] = VariantType.Option.some 8 ∧
    findEven [1, 3, 5, 7, 9] = VariantType.Option.none :=
  ⟨(findEven_first_even [1, 3, 5, 7, 8, 9]).2 4 (by decide) (by decide) (by decide),
   (findEven_first_even [1, 3, 5, 7, 9]).1 (by decide)⟩
/-- The typed `Result` match agrees with the raw dispatch: when the raw
handlers destructure their own case's payload from the instance they receive,
the raw dispatch on a well-typed exhaustive handler map always succeeds and
returns the typed match's result. -/
theorem result_matchRaw_eq_matchT {T E R : Type} (r : VariantType.Result T E)
    (fOk fErr : VariantType.Result T E → R) (hOk : T → R) (hErr : E → R)
    (hO : ∀ v, fOk (VariantType.Result.Ok v) = hOk v)
    (hE : ∀ e, fErr (VariantType.Result.Err e) = hErr e) :
    r.matchRaw [("Ok", fOk), ("Err", fErr)] = some (r.matchT hOk hErr) := by
  cases r with
  | Ok value =>
    simp [VariantType.Result.matchRaw, matchDispatch, VariantType.Result.tag,
      List.lookup_cons, VariantType.Result.matchT, hO]
  | Err error =>
    simp [VariantType.Result.matchRaw, matchDispatch, VariantType.Result.tag,
      List.lookup_cons, VariantType.Result.matchT, hE]

/-- The typed `Option` match agrees with the raw dispatch in the same way. -/
theorem option_matchRaw_eq_matchT {T R : Type} (o : VariantType.Option T)
    (fSome fNone : VariantType.Option T → R) (hSome : T → R) (hNone : Unit → R)
    (hS : ∀ v, fSome (VariantType.Option.Some v) = hSome v)
    (hN : fNone VariantType.Option.None = hNone ()) :
    o.matchRaw [("Some", fSome), ("None", fNone)] = some (o.matchT hSome hNone) := by
  cases o with
  | Some value =>
    simp [VariantType.Option.matchRaw, matchDispatch, VariantType.Option.tag,
      List.lookup_cons, VariantType.Option.matchT, hS]
  | None =>
    simp [VariantType.Option.matchRaw, matchDispatch, VariantType.Option.tag,
      List.lookup_cons, VariantType.Option.matchT, hN]
